import Mathlib

/-!
Verification of the conversation retrieval-and-explanation engine
(`task1_retrieval.py`, `task2_causal_analysis.py`, `models/pattern_analyzer.py`).

Text is modelled as `List Char` (ASCII fragment of Python `str`); the
regular expressions used by the source are embedded in a small backtracking
regex engine (`RE` / `mRE` / `searchRE`) that mirrors Python `re.search`
semantics for the constructs actually occurring in the source: literals,
greedy character-class repetition (`\d+`, `\s+`, `\s*`, `[\d,]+`, `\w+`),
ordered alternation, greedy option, and capture groups.
-/

namespace CS

open scoped List

/-- Python `str` modelled as a list of characters. -/
abbrev Str := List Char

/-- Coerce a Lean string literal to the `Str` model. -/
def S (s : String) : Str := s.data

/-- The apostrophe character (written via its code point). -/
def apoc : Char := Char.ofNat 39

/-- Python `\s` over ASCII: space, tab, newline, carriage return,
form feed, vertical tab. -/
def isWsChar (c : Char) : Bool :=
  c = ' ' || c = '\t' || c = '\n' || c = '\r' || c = Char.ofNat 11 || c = Char.ofNat 12

/-- Python `\d` over ASCII. -/
def isDigitChar (c : Char) : Bool := '0' ≤ c && c ≤ '9'

/-- Python `\w` over ASCII: letters, digits, underscore. -/
def isWordChar (c : Char) : Bool :=
  ('a' ≤ c && c ≤ 'z') || ('A' ≤ c && c ≤ 'Z') || isDigitChar c || c = '_'

/-- The character class `[\d,]` from the amount pattern. -/
def isDigitComma (c : Char) : Bool := isDigitChar c || c = ','

/-- Python `str.lower()` (ASCII). -/
def lower (s : Str) : Str := s.map Char.toLower

/-- Python `needle in haystack` for strings. -/
def hasSub (needle : Str) : Str → Bool
  | [] => needle.isEmpty
  | c :: cs => needle.isPrefixOf (c :: cs) || hasSub needle cs

/-- Python `str.split()` with no argument: split on runs of whitespace,
dropping empty pieces. -/
def splitWs (s : Str) : List Str :=
  ((s.splitOnP (fun c => isWsChar c)).filter (fun p => ¬ p.isEmpty))

/-- Python `str.title()` restricted to what the source uses: the first
letter of each alphabetic run is uppercased, the rest lowercased. -/
def pyTitle (s : Str) : Str :=
  (s.foldl
    (fun (st : Str × Bool) c =>
      if c.isAlpha then
        (st.1 ++ [if st.2 then c.toLower else c.toUpper], true)
      else
        (st.1 ++ [c], false))
    ([], false)).1

/-- Python `template.format(*groups)`: each `{}` placeholder is replaced by
the next group, in order.  (The source only ever formats with exactly as
many groups as placeholders.) -/
def pyFormat : Str → List Str → Str
  | [], _ => []
  | [c], _ => [c]
  | c :: d :: rest, gs =>
    if c = Char.ofNat 123 && d = Char.ofNat 125 then
      match gs with
      | g :: gs' => g ++ pyFormat rest gs'
      | [] => pyFormat rest []
    else
      c :: pyFormat (d :: rest) gs

/-! ## A backtracking regex engine for the source's patterns -/

/-- Regular-expression fragment used by the source. -/
inductive RE where
  /-- the empty regex -/
  | eps : RE
  /-- a literal string -/
  | lit : Str → RE
  /-- greedy `C+` for a character class `C` -/
  | cls1 : (Char → Bool) → RE
  /-- greedy `C*` for a character class `C` -/
  | cls0 : (Char → Bool) → RE
  /-- sequencing -/
  | seq : RE → RE → RE
  /-- ordered alternation (left branch preferred, as in Python `re`) -/
  | alt : RE → RE → RE
  /-- greedy option `r?` -/
  | opt : RE → RE
  /-- a capture group `(r)` -/
  | grp : RE → RE

/-- Backtracking matcher in continuation-passing style.  `mRE r cs caps k`
tries to match `r` at the start of `cs` with captures-so-far `caps`; on each
candidate parse (greedy / left-branch first, matching Python `re`
backtracking order) the continuation `k` receives the remaining input and
updated captures, and the first `some` wins. -/
def mRE : RE → Str → List Str → (Str → List Str → Option (List Str)) → Option (List Str)
  | .eps, cs, caps, k => k cs caps
  | .lit s, cs, caps, k =>
    if s.isPrefixOf cs then k (cs.drop s.length) caps else none
  | .cls1 p, cs, caps, k =>
    let m := (cs.takeWhile p).length
    (List.range m).findSome? (fun i => k (cs.drop (m - i)) caps)
  | .cls0 p, cs, caps, k =>
    let m := (cs.takeWhile p).length
    (List.range (m + 1)).findSome? (fun i => k (cs.drop (m - i)) caps)
  | .seq a b, cs, caps, k =>
    mRE a cs caps (fun cs2 caps2 => mRE b cs2 caps2 k)
  | .alt a b, cs, caps, k =>
    (mRE a cs caps k) <|> (mRE b cs caps k)
  | .opt a, cs, caps, k =>
    (mRE a cs caps k) <|> k cs caps
  | .grp a, cs, caps, k =>
    mRE a cs caps (fun cs2 caps2 => k cs2 (caps2 ++ [cs.take (cs.length - cs2.length)]))

/-- Try to match `r` at each start position, leftmost first; return the
captures of the first match (Python `re.search`). -/
def searchAux (r : RE) : Str → Option (List Str)
  | [] => mRE r [] [] (fun _ caps => some caps)
  | c :: cs => (mRE r (c :: cs) [] (fun _ caps => some caps)) <|> searchAux r cs

/-- Python `re.search(r, cs)`, returning the capture list of the first
match (empty list when the pattern has no groups). -/
def searchRE (r : RE) (cs : Str) : Option (List Str) := searchAux r cs

/-- Boolean form of `re.search`: does the pattern match anywhere? -/
def reTest (r : RE) (cs : Str) : Bool := (searchRE r cs).isSome

/-- Literal regex from a string literal. -/
def reS (s : String) : RE := .lit (S s)

/-- Sequence a list of regexes. -/
def sq (l : List RE) : RE := l.foldr .seq .eps

/-- `\s+` -/
def ws1 : RE := .cls1 isWsChar
/-- `\s*` -/
def ws0 : RE := .cls0 isWsChar
/-- `\d+` -/
def digits1 : RE := .cls1 isDigitChar

/-! ## Data model (`task1_retrieval.py`) -/

/-- `ConversationTurn` dataclass. -/
structure ConversationTurn where
  turn_id : Nat
  speaker : Str
  text : Str
  timestamp : Option Str := none
deriving DecidableEq, Repr

/-- The metadata dictionary built by `_parse_conversation`; it always has
exactly the keys `time_of_interaction`, `intent`, `reason_for_call`. -/
structure Metadata where
  time_of_interaction : Option Str := none
  intent : Str := []
  reason_for_call : Str := []
deriving DecidableEq, Repr

/-- `ConversationTranscript` dataclass. -/
structure ConversationTranscript where
  transcript_id : Str
  domain : Str
  outcome : Str
  turns : List ConversationTurn
  metadata : Metadata
deriving DecidableEq, Repr

/-- `ConversationTranscript.get_full_text`: turn texts joined with `" "`. -/
def get_full_text (t : ConversationTranscript) : Str :=
  List.intercalate (S " ") (t.turns.map (fun u => u.text))

/-! ## Pattern library (`models/pattern_analyzer.py`) -/

/-- `PatternAnalyzer._load_outcome_patterns`: outcome category →
ordered regex list, in declaration order. -/
def outcome_patterns : List (Str × List RE) :=
  [ (S "escalation",
      [ sq [reS "speak", ws1, .alt (reS "to") (reS "with"), ws1,
            .opt (sq [reS "a", ws1]), reS "supervisor"],
        sq [reS "escalat", .alt (reS "e") (.alt (reS "ed") (reS "ing"))],
        sq [reS "talk", ws1, reS "to", ws1, .opt (sq [reS "a", ws1]), reS "manager"],
        sq [reS "file", ws1, .opt (sq [reS "a", ws1]), reS "complaint"],
        sq [.alt (reS "been") (reS "calling"), ws1, reS "for", ws1,
            .opt (sq [digits1, ws1]), reS "week", .opt (reS "s")] ]),
    (S "fraud",
      [ sq [reS "fraud", ws1, reS "alert"],
        sq [reS "unauthorized", ws1,
            .alt (reS "charge") (.alt (reS "transaction") (reS "purchase"))],
        sq [reS "didn", .opt (.lit [apoc]), reS "t", ws1, reS "make", ws1,
            .alt (reS "this") (reS "that"), ws1, reS "purchase"],
        sq [reS "never", ws1, reS "been", ws1, reS "to"],
        sq [reS "block", .opt (.alt (reS "ed") (reS "ing")), ws1,
            .opt (sq [reS "my", ws1]), reS "card"] ]),
    (S "delivery_issue",
      [ sq [reS "show", .opt (reS "s"), ws1, .opt (sq [reS "as", ws1]), reS "delivered"],
        sq [reS "never", ws1, reS "received"],
        sq [reS "package", ws1, .opt (sq [reS "is", ws1]), reS "missing"],
        sq [reS "not", ws1, .opt (sq [reS "at", ws1]), .opt (sq [reS "my", ws1]), reS "door"],
        sq [reS "wrong", ws1, reS "address"] ]),
    (S "resolution",
      [ sq [reS "send", .opt (reS "ing"), ws1, .opt (sq [reS "a", ws1]), reS "replacement"],
        sq [.opt (sq [reS "full", ws1]), reS "refund"],
        sq [reS "expedited", ws1, .alt (reS "shipping") (reS "delivery")],
        sq [reS "no", ws1, .opt (sq [reS "extra", ws1]), reS "charge"],
        sq [reS "investigation", ws1, .alt (reS "started") (reS "initiated")] ]) ]

/-- `PatternAnalyzer._load_causal_patterns`: factor category →
ordered (regex, message template) list, in declaration order. -/
def causal_patterns : List (Str × List (RE × Str)) :=
  [ (S "temporal",
      [ (sq [reS "for", ws1, .grp digits1, ws1, reS "week", .opt (reS "s")],
          S "Duration: \x7b\x7d week(s)"),
        (sq [reS "for", ws1, .grp digits1, ws1, reS "day", .opt (reS "s")],
          S "Duration: \x7b\x7d day(s)"),
        (sq [reS "since", ws1, .grp (sq [.cls1 isWordChar, reS "day"])],
          S "Since \x7b\x7d"),
        (reS "yesterday", S "Occurred yesterday"),
        (sq [reS "this", ws1, reS "morning"], S "Occurred this morning") ]),
    (S "repetition",
      [ (sq [.grp digits1, ws1,
             .alt (sq [reS "time", .opt (reS "s")]) (sq [reS "attempt", .opt (reS "s")])],
          S "\x7b\x7d previous attempts"),
        (sq [reS "multiple", ws1,
             .alt (sq [reS "time", .opt (reS "s")]) (sq [reS "call", .opt (reS "s")])],
          S "Multiple occurrences"),
        (sq [.alt (reS "keep") (reS "keeps"), ws1,
             .alt (reS "happening") (reS "failing")],
          S "Recurring issue"),
        (sq [reS "again", ws1, reS "and", ws1, reS "again"], S "Repeated issue") ]),
    (S "emotional",
      [ (sq [.opt (sq [reS "very", ws1]), reS "frustrated"], S "Customer frustration"),
        (sq [.opt (sq [reS "very", ws1]), reS "upset"], S "Customer upset"),
        (reS "unacceptable", S "Expressed unacceptability"),
        (sq [reS "waste", .opt (reS "d"), ws1, .opt (sq [reS "my", ws1]), reS "time"],
          S "Perceived time waste") ]),
    (S "technical",
      [ (sq [reS "error", ws1, .opt (sq [reS "code", ws1]), .grp digits1],
          S "Error code \x7b\x7d"),
        (sq [.alt (reS "app") (reS "system"), ws1, .alt (reS "crash") (reS "fail")],
          S "System failure"),
        (sq [reS "login", ws1, reS "fail"], S "Authentication issue"),
        (sq [reS "can", .opt (.lit [apoc]), reS "t", ws1,
             .alt (reS "access") (sq [reS "log", ws0, reS "in"])],
          S "Access problem") ]) ]

/-- `PatternAnalyzer.classify_outcome`, parametric in the pattern table
(the source reads it from `self.outcome_patterns`).  Each category is
scored `matches / len(patterns)`; `max(scores, key=scores.get)` returns the
first key attaining the maximal value, modelled by the fold that replaces
the best candidate only on a strictly greater score.  (On a category with
an empty pattern list Python would raise `ZeroDivisionError`; the fixed
table has five patterns per category, and `ℚ` division by zero is 0.) -/
def classify_outcome (tbl : List (Str × List RE)) (text : Str) : Str × ℚ :=
  let tl := lower text
  let scores : List (Str × ℚ) :=
    tbl.map (fun op =>
      (op.1, ((op.2.filter (fun p => reTest p tl)).length : ℚ) / (op.2.length : ℚ)))
  match scores with
  | [] => (S "unknown", 0)
  | x :: xs => xs.foldl (fun best sc => if best.2 < sc.2 then sc else best) x

/-- `PatternAnalyzer.extract_causal_factors`: iterate categories in
declaration order, patterns within a category in declaration order; each
matching pattern appends `"<Category.title()>: <factor>"` where the factor
is the template, formatted with the captured groups when the pattern has
any. -/
def extract_causal_factors (tbl : List (Str × List (RE × Str))) (text : Str) : List Str :=
  let tl := lower text
  tbl.foldl
    (fun acc cp =>
      cp.2.foldl
        (fun acc2 pt =>
          match searchRE pt.1 tl with
          | some caps =>
            acc2 ++ [pyTitle cp.1 ++ S ": " ++
              (if caps.isEmpty then pt.2 else pyFormat pt.2 caps)]
          | none => acc2)
        acc)
    []

/-! ## Retriever (`task1_retrieval.py`) -/

/-- The store `conversations_by_id`: a Python dict modelled as an
insertion-ordered association list with unique keys. -/
abbrev Store := List (Str × ConversationTranscript)

/-- Python dict assignment `d[k] = v`: an existing key keeps its position
in iteration order and gets the new value; a new key is appended. -/
def storeInsert (st : Store) (k : Str) (v : ConversationTranscript) : Store :=
  if st.any (fun p => p.1 = k) then
    st.map (fun p => if p.1 = k then (k, v) else p)
  else
    st ++ [(k, v)]

/-- The score `_retrieve_keyword` assigns to one transcript, given the
lowercased query: token-overlap ratio times 100 plus fixed domain boosts. -/
def kw_score (query_lower : Str) (t : ConversationTranscript) : ℚ :=
  let all_text := lower (get_full_text t)
  let reason := lower t.metadata.reason_for_call
  let all_content := all_text ++ S " " ++ reason
  let query_words := (splitWs query_lower).filter (fun w => 2 < w.length)
  let base : ℚ :=
    if query_words.isEmpty then 0
    else ((query_words.filter (fun w => hasSub w all_content)).length : ℚ)
           / (query_words.length : ℚ) * 100
  let b1 : ℚ :=
    if hasSub (S "escalat") query_lower &&
       (hasSub (S "escalat") all_content || hasSub (S "supervisor") all_content)
    then 50 else 0
  let b2 : ℚ :=
    if hasSub (S "fraud") query_lower && hasSub (S "fraud") all_content then 50 else 0
  let b3 : ℚ :=
    if hasSub (S "delivery") query_lower && hasSub (S "delivery") all_content then 50 else 0
  let b4 : ℚ :=
    if hasSub (S "error") query_lower && hasSub (S "error") all_content then 30 else 0
  base + b1 + b2 + b3 + b4

/-- `ConversationRetriever._retrieve_keyword`: score every transcript,
stable-sort descending by score (Python `sorted(..., reverse=True)` is a
stable descending sort, modelled by `List.mergeSort` — also a stable
sort — with the order "score at least as large"), keep the first
`top_k` entries with a strictly positive score, and fall back to the
first `top_k` store keys when that list is empty. -/
def retrieve_keyword (st : Store) (query : Str) (top_k : Nat) : List Str :=
  let query_lower := lower query
  let scores : List (Str × ℚ) := st.map (fun p => (p.1, kw_score query_lower p.2))
  let sorted_ids := scores.mergeSort (fun a b => decide (b.2 ≤ a.2))
  let result := ((sorted_ids.take top_k).filter (fun p => 0 < p.2)).map (fun p => p.1)
  if result.isEmpty then (st.map (fun p => p.1)).take top_k else result

/-! ## Loader (`ConversationRetriever.load_conversations`) -/

/-- Raw parsed JSON-like Python values fed to the loader. -/
inductive Raw where
  | null : Raw
  | bool : Bool → Raw
  | num : Int → Raw
  | str : Str → Raw
  | arr : List Raw → Raw
  | obj : List (Str × Raw) → Raw

/-- Python `d.get(k, default)` on an object. -/
def rawGet (kvs : List (Str × Raw)) (k : Str) (dflt : Raw) : Raw :=
  match kvs.find? (fun p => p.1 = k) with
  | some p => p.2
  | none => dflt

/-- Python `k in d` on an object. -/
def rawHasKey (kvs : List (Str × Raw)) (k : Str) : Bool :=
  kvs.any (fun p => p.1 = k)

/-- How non-string Python values stored verbatim in text fields are
rendered in the model (`speaker`, `text`, `domain`, `reason_for_call`,
timestamps may be arbitrary values in Python and are stored unchanged;
their content is irrelevant to the verified claims). -/
def rawAsStr : Raw → Str
  | .str s => s
  | .null => S "None"
  | .bool true => S "True"
  | .bool false => S "False"
  | .num n => S (toString n)
  | .arr _ => []
  | .obj _ => []

/-- Python iteration `for x in v`: lists yield elements, strings yield
one-character strings, dicts yield their keys; numbers, booleans and
`None` are not iterable (a `TypeError`, modelled as `none`). -/
def pyIter : Raw → Option (List Raw)
  | .arr l => some l
  | .str s => some (s.map (fun c => Raw.str [c]))
  | .obj kvs => some (kvs.map (fun p => Raw.str p.1))
  | _ => none

/-- `ConversationRetriever._extract_conversations`. -/
def extract_conversations (data : Raw) : Raw :=
  match data with
  | .arr l => .arr l
  | .obj kvs =>
    if rawHasKey kvs (S "transcripts") then rawGet kvs (S "transcripts") .null
    else if rawHasKey kvs (S "conversations") then rawGet kvs (S "conversations") .null
    else if rawHasKey kvs (S "conversation") || rawHasKey kvs (S "transcript_id") then
      .arr [.obj kvs]
    else .arr []
  | _ => .arr []

/-- `ConversationRetriever._parse_intent_to_outcome`. -/
def parse_intent_to_outcome (intent : Str) : Str :=
  let il := lower intent
  if hasSub (S "escalation") il then S "escalation"
  else if hasSub (S "fraud") il then S "fraud_resolved"
  else if hasSub (S "delivery") il then S "delivery_investigation"
  else if hasSub (S "resolved") il || hasSub (S "compensation") il then
    S "resolved_with_compensation"
  else if intent.isEmpty then S "general_inquiry" else intent

/-- One turn of `_parse_conversation`'s loop: dict turns and string turns
are kept, anything else is silently skipped (`i` is the position in the
source list, used for the id and the synthesized speaker). -/
def parseTurn (i : Nat) (turn : Raw) : Option ConversationTurn :=
  match turn with
  | .obj kvs =>
    some { turn_id := i,
           speaker := rawAsStr (rawGet kvs (S "speaker")
             (.str (S "Speaker" ++ S (toString (i % 2 + 1))))),
           text := rawAsStr (rawGet kvs (S "text") (rawGet kvs (S "utterance") (.str []))),
           timestamp :=
             match rawGet kvs (S "timestamp") .null with
             | .null => none
             | v => some (rawAsStr v) }
  | .str s => some { turn_id := i, speaker := S "Speaker" ++ S (toString (i % 2 + 1)),
                     text := s, timestamp := none }
  | _ => none

/-- `ConversationRetriever._parse_conversation`.  `none` models the entry
raising inside the per-entry `try` (caught and skipped by the caller):
a non-dict entry (`.get` raises `AttributeError`), a non-iterable
`conversation`/`turns` value (`TypeError`), a present non-string `intent`
(`.lower()` raises), or a present non-string `transcript_id` (kept
out of the model's string-keyed store). -/
def parse_conversation (conv_data : Raw) (idx : Nat) : Option ConversationTranscript :=
  match conv_data with
  | .obj kvs => do
    let turnsRaw ← pyIter (rawGet kvs (S "conversation") (rawGet kvs (S "turns") (.arr [])))
    let turns := (turnsRaw.enum.map (fun p => parseTurn p.1 p.2)).reduceOption
    let intent ←
      match rawGet kvs (S "intent") (.str []) with
      | .str s => some s
      | _ => none
    let tid ←
      match rawGet kvs (S "transcript_id") (.str (S "conv_" ++ S (toString idx))) with
      | .str s => some s
      | _ => none
    some { transcript_id := tid,
           domain := rawAsStr (rawGet kvs (S "domain") (.str (S "unknown"))),
           outcome := parse_intent_to_outcome intent,
           turns := turns,
           metadata :=
             { time_of_interaction :=
                 match rawGet kvs (S "time_of_interaction") .null with
                 | .null => none
                 | v => some (rawAsStr v),
               intent := intent,
               reason_for_call := rawAsStr (rawGet kvs (S "reason_for_call") (.str [])) } }
  | _ => none

/-- `ConversationRetriever.load_conversations` (keyword-only retriever:
the embedding branch is inactive).  `none` models the uncaught
`TypeError` when `_extract_conversations` returns a non-iterable value
(e.g. `{"transcripts": 3}`); otherwise every entry is parsed inside a
`try`, failures are skipped, successes are written into the store, and
the method returns the resulting store together with
`len(self.conversations_by_id)`. -/
def load_conversations (data : Raw) (st : Store) : Option (Store × Nat) := do
  let conversations ← pyIter (extract_conversations data)
  let st' := conversations.enum.foldl
    (fun acc p =>
      match parse_conversation p.2 p.1 with
      | some t => storeInsert acc t.transcript_id t
      | none => acc)
    st
  some (st', st'.length)

/-! ## Causal analyzer (`task2_causal_analysis.py`) -/

/-- `CausalExplanation` dataclass (the `timestamp` default factory
`datetime.now().isoformat()` is modelled by an explicit `now` input). -/
structure CausalExplanation where
  query : Str
  primary_cause : Str
  supporting_factors : List Str
  evidence_spans : List (Nat × Str)
  confidence : ℚ
  relevant_transcript_ids : List Str
  timestamp : Str
deriving DecidableEq, Repr

/-- One record of `CausalAnalyzer.history`. -/
structure HistEntry where
  query : Str
  explanation : Str
  timestamp : Str
deriving DecidableEq, Repr

/-- The regex `error\s*(?:code\s*)?(\d+)` from `_generate_primary_cause`. -/
def errorCodeRE : RE := sq [reS "error", ws0, .opt (sq [reS "code", ws0]), .grp digits1]

/-- The regex `\$[\d,]+\.?\d*` from `_generate_primary_cause` (the code
uses the whole match, `group(0)`, modelled by one enclosing group). -/
def amountRE : RE := .grp (sq [reS "$", .cls1 isDigitComma, .opt (reS "."), .cls0 isDigitChar])

/-- `CausalAnalyzer._generate_primary_cause`; the first transcript
(`transcripts[0]`) is passed separately, the full list as given. -/
def generate_primary_cause (outcome : Str) (first : ConversationTranscript)
    (transcripts : List ConversationTranscript) : Str :=
  let text := lower (List.intercalate (S " ") (transcripts.map get_full_text))
  let reason := first.metadata.reason_for_call
  if hasSub (S "escalation") outcome then
    let causes :=
      (if hasSub (S "three weeks") text || hasSub (S "weeks") text then
        [S "prolonged issue duration (multiple weeks)"] else []) ++
      (if hasSub (S "multiple") text || hasSub (S "several") text ||
          hasSub (S "repeated") text then
        [S "multiple failed resolution attempts"] else []) ++
      (if hasSub (S "frustrated") text || hasSub (S "frustration") text then
        [S "accumulated customer frustration"] else []) ++
      (if hasSub (S "nobody") text || hasSub (S "no one") text then
        [S "previous agents unable to resolve"] else []) ++
      (match searchRE errorCodeRE text with
       | some (code :: _) => [S "unresolved error code " ++ code]
       | _ => [])
    if ¬ causes.isEmpty then
      S "Customer escalated due to: " ++ List.intercalate (S "; ") causes
    else S "Customer requested escalation to supervisor"
  else if hasSub (S "fraud") outcome then
    let causes :=
      (match searchRE amountRE text with
       | some (amount :: _) => [S "unauthorized charge of " ++ amount]
       | _ => []) ++
      (if hasSub (S "new york") (lower text) then
        [S "transaction in New York (customer never visited)"]
       else if hasSub (S "different location") text then
        [S "transaction from different location"] else []) ++
      (if hasSub (S "fraud alert") text then
        [S "automatic fraud detection triggered"] else []) ++
      (if hasSub (S "blocked") text || hasSub (S "block") text then
        [S "card blocked for security"] else [])
    if ¬ causes.isEmpty then
      S "Fraud detected: " ++ List.intercalate (S "; ") causes
    else S "Fraudulent transaction identified and addressed"
  else if hasSub (S "delivery") outcome then
    let causes :=
      (if hasSub (S "shows delivered") text || hasSub (S "marked delivered") text then
        [S "package marked delivered in tracking"] else []) ++
      (if hasSub (S "never received") text || hasSub (S "not there") text then
        [S "customer did not receive package"] else []) ++
      (if hasSub (S "camera") text || hasSub (S "neighbor") text then
        [S "customer verified non-delivery"] else []) ++
      (if hasSub (S "wrong address") text then
        [S "possible wrong address delivery"] else [])
    if ¬ causes.isEmpty then
      S "Delivery issue: " ++ List.intercalate (S "; ") causes
    else S "Package delivery discrepancy reported"
  else
    if ¬ reason.isEmpty then S "Issue identified: " ++ reason
    else S "Issue type: " ++ outcome

/-- `CausalAnalyzer._extract_supporting_factors` (its `outcome` parameter
is unused by the source as well): a fixed checklist of substring tests
over the concatenated lowercased text, truncated to the first 6 hits. -/
def extract_supporting_factors (outcome : Str)
    (transcripts : List ConversationTranscript) : List Str :=
  let _ := outcome
  let text := lower (List.intercalate (S " ") (transcripts.map get_full_text))
  let factors :=
    (if hasSub (S "three weeks") text || hasSub (S "weeks") text then
      [S "Extended duration: issue persisted for weeks"] else []) ++
    (if hasSub (S "yesterday") text || hasSub (S "today") text then
      [S "Recent occurrence: within last 24 hours"] else []) ++
    (if hasSub (S "multiple") text || hasSub (S "several") text then
      [S "Multiple occurrences or attempts documented"] else []) ++
    (if hasSub (S "repeated") text || hasSub (S "again") text then
      [S "Repeated failures noted"] else []) ++
    (if hasSub (S "frustrated") text || hasSub (S "frustration") text then
      [S "Customer expressed frustration"] else []) ++
    (if hasSub (S "upset") text || hasSub (S "angry") text then
      [S "Customer emotional distress"] else []) ++
    (if hasSub (S "checked") text || hasSub (S "verified") text then
      [S "Customer performed verification steps"] else []) ++
    (if hasSub (S "supervisor") text || hasSub (S "manager") text then
      [S "Escalation to supervisor requested"] else []) ++
    (if hasSub (S "expedited") text || hasSub (S "immediately") text then
      [S "Agent provided swift response"] else []) ++
    (if hasSub (S "blocked") text || hasSub (S "reversed") text then
      [S "Immediate security action taken"] else [])
  factors.take 6

/-- The key-indicator vocabulary of `_extract_evidence`. -/
def key_indicators : List Str :=
  [S "escalate", S "supervisor", S "fraud", S "unauthorized",
   S "delivered", S "error", S "frustrated", S "weeks", S "multiple"]

/-- `turn.text[:120] + "..." if len(turn.text) > 120 else turn.text`. -/
def truncDisplay (text : Str) : Str :=
  if 120 < text.length then text.take 120 ++ S "..." else text

/-- The display string a qualifying turn contributes:
`f"[{turn.speaker}] {display}"` with the text truncated to 120
characters plus `"..."` when longer. -/
def mkSpan (u : ConversationTurn) : Nat × Str :=
  (u.turn_id, S "[" ++ u.speaker ++ S "] " ++ truncDisplay u.text)

/-- One turn of `_extract_evidence`'s inner loop: append the span when
the turn has a query-term or key-indicator hit and fewer than 4 spans
have been collected. -/
def evidenceStep (query_terms : List Str) (acc : List (Nat × Str))
    (u : ConversationTurn) : List (Nat × Str) :=
  let tl := lower u.text
  let query_matches := (query_terms.filter (fun t => hasSub t tl)).length
  let indicator_matches := (key_indicators.filter (fun k => hasSub k tl)).length
  if (0 < query_matches || 0 < indicator_matches) && acc.length < 4 then
    acc ++ [mkSpan u]
  else acc

/-- `CausalAnalyzer._extract_evidence`: query terms are whitespace tokens
longer than 3 characters, lowercased (`set(...)` only feeds a `> 0`
count, so list form is equivalent); transcripts and turns are scanned in
order. -/
def extract_evidence (query : Str) (transcripts : List ConversationTranscript) :
    List (Nat × Str) :=
  let query_terms := ((splitWs query).filter (fun w => 3 < w.length)).map lower
  transcripts.foldl (fun acc t => t.turns.foldl (evidenceStep query_terms) acc) []

/-- `CausalAnalyzer._calculate_confidence`, in exact rational arithmetic. -/
def calculate_confidence (transcripts : List ConversationTranscript)
    (factors : List Str) : ℚ :=
  let c0 : ℚ := 3/5
  let c1 := c0 + min ((transcripts.length : ℚ) * (1/20)) (3/20)
  let c2 := c1 + min ((factors.length : ℚ) * (3/100)) (3/20)
  let c3 := c2 +
    (match transcripts with
     | [] => 0
     | t :: _ => if ¬ t.metadata.reason_for_call.isEmpty then 1/10 else 0)
  min (max c3 (3/5)) (19/20)

/-- `CausalAnalyzer._empty_explanation`. -/
def empty_explanation (now query : Str) : CausalExplanation :=
  { query := query,
    primary_cause := S "No relevant conversations found for analysis",
    supporting_factors := [],
    evidence_spans := [],
    confidence := 3/10,
    relevant_transcript_ids := [],
    timestamp := now }

/-- `CausalAnalyzer.analyze`.  The analyzer's mutable `self.history` is
threaded explicitly; `now` stands for `datetime.now().isoformat()`. -/
def analyze (hist : List HistEntry) (now query : Str)
    (transcripts : List ConversationTranscript) (include_history : Bool := true) :
    CausalExplanation × List HistEntry :=
  match transcripts with
  | [] => (empty_explanation now query, hist)
  | t :: rest =>
    let outcome := t.outcome
    let primary_cause := generate_primary_cause outcome t (t :: rest)
    let factors := extract_supporting_factors outcome (t :: rest)
    let evidence := extract_evidence query (t :: rest)
    let confidence := calculate_confidence (t :: rest) factors
    let explanation : CausalExplanation :=
      { query := query,
        primary_cause := primary_cause,
        supporting_factors := factors,
        evidence_spans := evidence,
        confidence := confidence,
        relevant_transcript_ids := (t :: rest).map (fun x => x.transcript_id),
        timestamp := now }
    (explanation,
     if include_history then
       hist ++ [{ query := query, explanation := primary_cause, timestamp := now }]
     else hist)

/-! ## Concrete scenario data -/

/-- The transcript text of spec Scenario A. -/
def scenarioAText : Str :=
  S "I" ++ [apoc] ++ S "ve been trying to resolve a login issue for three weeks... I" ++
  [apoc] ++ S "ve explained this multiple times... Nobody can tell me... error code 3309"

/-- The Scenario A transcript: the given text as one turn, outcome
`escalation`. -/
def scenarioATranscript : ConversationTranscript :=
  { transcript_id := S "t1", domain := S "Banking", outcome := S "escalation",
    turns := [{ turn_id := 0, speaker := S "customer", text := scenarioAText }],
    metadata := { intent := S "escalation_request",
                  reason_for_call := S "login issue" } }

/-! ## Theorems -/

/-- The confidence formula exactly as the specification words it:
`0.6 + min(0.05 * transcript_count, 0.15) + min(0.03 * factor_count, 0.15)
+ (0.1 if the first transcript's reason_for_call is non-empty else 0)`,
clamped to `[0.6, 0.95]`. -/
def confidenceSpec (transcript_count factor_count : Nat)
    (reason_nonempty : Bool) : ℚ :=
  min (max ((3/5 : ℚ) + min ((1/20 : ℚ) * (transcript_count : ℚ)) ((3/20 : ℚ))
        + min ((3/100 : ℚ) * (factor_count : ℚ)) ((3/20 : ℚ))
        + (if reason_nonempty then (1/10 : ℚ) else 0)) ((3/5 : ℚ))) ((19/20 : ℚ))

/-- C1: for every non-empty transcript list the confidence returned by
`analyze` equals the spec formula (base 0.6, transcript-count and
factor-count bonuses capped at 0.15 each, 0.1 metadata bonus, clamped to
`[0.6, 0.95]`), and lies in `[0.6, 0.95]`; for the empty list it is
exactly 0.3. -/
theorem analyze_confidence_spec (hist : List HistEntry) (now query : Str)
    (transcripts : List ConversationTranscript) (inc : Bool) :
    ((transcripts = [] →
        (analyze hist now query transcripts inc).1.confidence = 3/10) ∧
     (transcripts ≠ [] →
        (analyze hist now query transcripts inc).1.confidence
          = confidenceSpec transcripts.length
              (analyze hist now query transcripts inc).1.supporting_factors.length
              (match transcripts with
               | [] => false
               | t :: _ => ¬ t.metadata.reason_for_call.isEmpty) ∧
        3/5 ≤ (analyze hist now query transcripts inc).1.confidence ∧
        (analyze hist now query transcripts inc).1.confidence ≤ 19/20)) := by
  cases transcripts with
  | nil => exact ⟨fun _ => rfl, fun h => absurd rfl h⟩
  | cons t rest =>
    refine ⟨fun h => (nomatch h), fun _ => ⟨?_, ?_, ?_⟩⟩
    · show calculate_confidence (t :: rest) _ = _
      have hsf : (analyze hist now query (t :: rest) inc).1.supporting_factors
          = extract_supporting_factors t.outcome (t :: rest) := rfl
      rw [hsf]
      unfold calculate_confidence confidenceSpec
      simp only [decide_eq_true_eq]
      ring_nf
    · show 3/5 ≤ calculate_confidence (t :: rest) _
      unfold calculate_confidence
      exact le_min (le_max_right _ _) (by norm_num)
    · show calculate_confidence (t :: rest) _ ≤ 19/20
      exact min_le_right _ _

/-- Witness for C1 at Scenario A's transcript. -/
theorem analyze_confidence_spec_witness :
    ([scenarioATranscript] ≠ ([] : List ConversationTranscript)) ∧
    (analyze [] (S "T0") (S "why did the conversation escalate")
        [scenarioATranscript] true).1.confidence = 81/100 := by
  refine ⟨by decide, ?_⟩
  have h := (analyze_confidence_spec [] (S "T0")
    (S "why did the conversation escalate") [scenarioATranscript] true).2 (by decide)
  rw [h.1]
  have hf : (analyze [] (S "T0") (S "why did the conversation escalate")
      [scenarioATranscript] true).1.supporting_factors.length = 2 := by decide
  have hb : (match [scenarioATranscript] with
      | [] => false
      | t :: _ => ¬ t.metadata.reason_for_call.isEmpty) = true := by decide
  rw [hf, hb]
  show confidenceSpec 1 2 true = 81/100
  norm_num [confidenceSpec, min_def, max_def]

set_option maxRecDepth 40000 in
/-- C3: on the Scenario A transcript (text with "three weeks",
"multiple", "Nobody", "error code 3309"; outcome `escalation`), `analyze`
with the query "why did the conversation escalate" produces exactly the
expected primary cause. -/
theorem scenarioA_primary_cause :
    (analyze [] (S "2024-01-01T00:00:00") (S "why did the conversation escalate")
        [scenarioATranscript] true).1.primary_cause
      = S ("Customer escalated due to: prolonged issue duration (multiple weeks); " ++
           "multiple failed resolution attempts; previous agents unable to resolve; " ++
           "unresolved error code 3309") := by
  decide

/-- C8: two `analyze` calls with the same query and transcript list agree
on `primary_cause`, `supporting_factors`, `evidence_spans` and
`confidence`, whatever the history state, timestamp, or
`include_history` flag of each call. -/
theorem analyze_idempotent (h1 h2 : List HistEntry) (n1 n2 query : Str)
    (transcripts : List ConversationTranscript) (i1 i2 : Bool) :
    (analyze h1 n1 query transcripts i1).1.primary_cause
        = (analyze h2 n2 query transcripts i2).1.primary_cause ∧
    (analyze h1 n1 query transcripts i1).1.supporting_factors
        = (analyze h2 n2 query transcripts i2).1.supporting_factors ∧
    (analyze h1 n1 query transcripts i1).1.evidence_spans
        = (analyze h2 n2 query transcripts i2).1.evidence_spans ∧
    (analyze h1 n1 query transcripts i1).1.confidence
        = (analyze h2 n2 query transcripts i2).1.confidence := by
  cases transcripts <;> simp [analyze, empty_explanation]

/-- C9: `analyze` on an empty transcript list leaves the history
unchanged, and on a non-empty list with `include_history` at its default
`True` appends exactly the one record
`(query, primary_cause, timestamp)`. -/
theorem analyze_history_effect (hist : List HistEntry) (now query : Str)
    (transcripts : List ConversationTranscript) (inc : Bool) :
    ((analyze hist now query [] inc).2 = hist) ∧
    (transcripts ≠ [] →
      (analyze hist now query transcripts).2
        = hist ++ [{ query := query,
                     explanation :=
                       (analyze hist now query transcripts).1.primary_cause,
                     timestamp := now }]) := by
  constructor
  · rfl
  · intro h
    match transcripts with
    | [] => exact absurd rfl h
    | t :: rest => rfl

/-- Witness for C9 at Scenario A's transcript. -/
theorem analyze_history_effect_witness :
    ([scenarioATranscript] ≠ ([] : List ConversationTranscript)) ∧
    (analyze [] (S "T0") (S "q") [scenarioATranscript]).2.length = 1 := by
  refine ⟨by decide, ?_⟩
  rw [(analyze_history_effect [] (S "T0") (S "q") [scenarioATranscript] true).2
    (by decide)]
  decide

/-! ## C6: causal-factor extraction -/

/-- The spec's view of `extract_causal_factors`: flatten the table to
(category, pattern, template) triples in declaration order (categories in
declaration order, patterns within each category in declaration order)
and let every matching pattern contribute exactly one factor — no
deduplication, no early exit. -/
def causalFactorsSpec (tbl : List (Str × List (RE × Str))) (text : Str) : List Str :=
  (tbl.flatMap (fun cp => cp.2.map (fun pt => (cp.1, pt)))).filterMap
    (fun cpt => (searchRE cpt.2.1 (lower text)).map
      (fun caps => pyTitle cpt.1 ++ S ": " ++
        (if caps.isEmpty then cpt.2.2 else pyFormat cpt.2.2 caps)))

/-- Inner loop of `extract_causal_factors` as an append of a `filterMap`. -/
theorem causal_inner (tl cat : Str) (pats : List (RE × Str)) (acc : List Str) :
    pats.foldl
      (fun acc2 pt =>
        match searchRE pt.1 tl with
        | some caps =>
          acc2 ++ [pyTitle cat ++ S ": " ++
            (if caps.isEmpty then pt.2 else pyFormat pt.2 caps)]
        | none => acc2)
      acc
    = acc ++ pats.filterMap
        (fun pt => (searchRE pt.1 tl).map
          (fun caps => pyTitle cat ++ S ": " ++
            (if caps.isEmpty then pt.2 else pyFormat pt.2 caps))) := by
  induction pats generalizing acc with
  | nil => simp
  | cons p ps ih =>
    rw [List.foldl_cons, List.filterMap_cons]
    cases h : searchRE p.1 tl with
    | none =>
      simp only [h, Option.map_none']
      exact ih acc
    | some caps =>
      simp only [h, Option.map_some']
      rw [ih]
      simp [List.append_assoc]

/-- Outer loop of `extract_causal_factors` as an append of the flattened
`filterMap`. -/
theorem causal_outer (tl : Str) (tbl : List (Str × List (RE × Str))) (acc : List Str) :
    tbl.foldl
      (fun acc1 cp =>
        cp.2.foldl
          (fun acc2 pt =>
            match searchRE pt.1 tl with
            | some caps =>
              acc2 ++ [pyTitle cp.1 ++ S ": " ++
                (if caps.isEmpty then pt.2 else pyFormat pt.2 caps)]
            | none => acc2)
          acc1)
      acc
    = acc ++ (tbl.flatMap (fun cp => cp.2.map (fun pt => (cp.1, pt)))).filterMap
        (fun cpt => (searchRE cpt.2.1 tl).map
          (fun caps => pyTitle cpt.1 ++ S ": " ++
            (if caps.isEmpty then cpt.2.2 else pyFormat cpt.2.2 caps))) := by
  induction tbl generalizing acc with
  | nil => simp
  | cons cp tps ih =>
    rw [List.foldl_cons, causal_inner, ih, List.flatMap_cons, List.filterMap_append,
      List.filterMap_map, List.append_assoc]
    rfl

/-- C6: for every pattern table and every text, `extract_causal_factors`
returns exactly one factor string per matching pattern, iterating
categories and patterns in declaration order, each factor being
`"<Category>: <template filled with the first match's groups>"`
(templates without groups verbatim), with no deduplication and no early
exit. -/
theorem extract_causal_factors_spec (tbl : List (Str × List (RE × Str))) (text : Str) :
    extract_causal_factors tbl text = causalFactorsSpec tbl text := by
  unfold extract_causal_factors causalFactorsSpec
  rw [causal_outer]
  rfl

/-! ## C7: outcome classification -/

/-- The spec's view of `classify_outcome`: score each category as
`matches / len(patterns)` over case-insensitive search, take the highest
score, and return the earliest category (declaration order) attaining
it; with no categories, `("unknown", 0.0)`. -/
def classifySpec (tbl : List (Str × List RE)) (text : Str) : Str × ℚ :=
  let tl := lower text
  let scores : List (Str × ℚ) :=
    tbl.map (fun op =>
      (op.1, ((op.2.filter (fun p => reTest p tl)).length : ℚ) / (op.2.length : ℚ)))
  match (scores.map (fun sc => sc.2)).max? with
  | none => (S "unknown", 0)
  | some m => (scores.find? (fun sc => sc.2 = m)).getD (S "unknown", 0)

/-- The base of a `foldl max` bounds the result. -/
theorem le_foldl_max (b : ℚ) (l : List ℚ) : b ≤ l.foldl max b := by
  induction l generalizing b with
  | nil => exact le_refl b
  | cons x xs ih => exact le_trans (le_max_left b x) (ih (max b x))

/-- The strict-improvement fold of `classify_outcome` computes the first
element attaining the maximal value. -/
theorem classify_foldl_find (xs : List (Str × ℚ)) (x : Str × ℚ) :
    xs.foldl (fun best sc => if best.2 < sc.2 then sc else best) x
      = ((x :: xs).find?
          (fun sc => sc.2 = (xs.map (fun v => v.2)).foldl max x.2)).getD
          (S "unknown", 0) := by
  induction xs generalizing x with
  | nil => simp [List.find?]
  | cons y ys ih =>
    have hval : (if x.2 < y.2 then y else x).2 = max x.2 y.2 := by
      split_ifs with h
      · exact (max_eq_right h.le).symm
      · exact (max_eq_left (not_lt.mp h)).symm
    have hbase : max x.2 y.2 ≤ (ys.map (fun v => v.2)).foldl max (max x.2 y.2) :=
      le_foldl_max _ _
    rw [List.foldl_cons, ih, hval, List.map_cons, List.foldl_cons]
    by_cases hxy : x.2 < y.2
    · have hxne : ¬ ((fun sc : Str × ℚ => decide
          (sc.2 = (ys.map (fun v => v.2)).foldl max (max x.2 y.2))) x = true) := by
        simp only [decide_eq_true_eq]
        exact ne_of_lt (lt_of_lt_of_le (lt_of_lt_of_le hxy (le_max_right _ _)) hbase)
      rw [if_pos hxy,
        @List.find?_cons_of_neg _
          (fun sc : Str × ℚ => decide
            (sc.2 = (ys.map (fun v => v.2)).foldl max (max x.2 y.2)))
          x (y :: ys) hxne]
    · rw [if_neg hxy]
      by_cases hx : x.2 = (ys.map (fun v => v.2)).foldl max (max x.2 y.2)
      · have hp : ((fun sc : Str × ℚ => decide
            (sc.2 = (ys.map (fun v => v.2)).foldl max (max x.2 y.2))) x = true) := by
          simpa using hx
        rw [@List.find?_cons_of_pos _
              (fun sc : Str × ℚ => decide
                (sc.2 = (ys.map (fun v => v.2)).foldl max (max x.2 y.2)))
              x ys hp,
            @List.find?_cons_of_pos _
              (fun sc : Str × ℚ => decide
                (sc.2 = (ys.map (fun v => v.2)).foldl max (max x.2 y.2)))
              x (y :: ys) hp]
      · have hxn : ¬ ((fun sc : Str × ℚ => decide
            (sc.2 = (ys.map (fun v => v.2)).foldl max (max x.2 y.2))) x = true) := by
          simpa using hx
        have hyn : ¬ ((fun sc : Str × ℚ => decide
            (sc.2 = (ys.map (fun v => v.2)).foldl max (max x.2 y.2))) y = true) := by
          simp only [decide_eq_true_eq]
          intro hy
          exact hx (le_antisymm (le_trans (le_max_left _ _) hbase)
            (hy ▸ not_lt.mp hxy))
        rw [@List.find?_cons_of_neg _
              (fun sc : Str × ℚ => decide
                (sc.2 = (ys.map (fun v => v.2)).foldl max (max x.2 y.2)))
              x ys hxn,
            @List.find?_cons_of_neg _
              (fun sc : Str × ℚ => decide
                (sc.2 = (ys.map (fun v => v.2)).foldl max (max x.2 y.2)))
              x (y :: ys) hxn,
            @List.find?_cons_of_neg _
              (fun sc : Str × ℚ => decide
                (sc.2 = (ys.map (fun v => v.2)).foldl max (max x.2 y.2)))
              y ys hyn]

/-- C7: `classify_outcome` scores each category as `matches / len`,
returns the highest score with ties resolved in favor of the earliest
declared category, and returns `("unknown", 0.0)` when no categories are
defined. -/
theorem classify_outcome_spec (tbl : List (Str × List RE)) (text : Str) :
    classify_outcome tbl text = classifySpec tbl text ∧
    classify_outcome [] text = (S "unknown", 0) := by
  refine ⟨?_, rfl⟩
  unfold classify_outcome classifySpec
  cases tbl with
  | nil => rfl
  | cons op rest =>
    simp only [List.map_cons, List.max?_cons']
    rw [classify_foldl_find]

/-! ## C2: keyword retrieval bounds -/

/-- A non-empty list truncated to at least one element stays non-empty. -/
theorem take_ne_nil_of_ne_nil {α : Type} (l : List α) (k : Nat)
    (hl : l ≠ []) (hk : 1 ≤ k) : l.take k ≠ [] := by
  cases l with
  | nil => exact absurd rfl hl
  | cons x xs =>
    cases k with
    | zero => exact absurd hk (by omega)
    | succ k => simp

/-- C2 counterexample: with `top_k = 0` the keyword retrieval returns no
ids even though the query token set and the store are non-empty — the
claim fails for `top_k = 0`. -/
theorem retrieve_topk_zero_cx :
    ((splitWs (lower (S "fraud"))).filter (fun w => 2 < w.length)) ≠ [] ∧
    ([(S "t1", scenarioATranscript)] : Store) ≠ [] ∧
    retrieve_keyword [(S "t1", scenarioATranscript)] (S "fraud") 0 = [] :=
  ⟨by decide, by decide, by decide⟩

/-- C2 (amended): for every query whose token set is non-empty and every
`top_k ≥ 1`, keyword retrieval returns at most `top_k` ids, and at least
one id whenever the store is non-empty (via the fallback to the first
`top_k` store ids when no score is positive). -/
theorem retrieve_keyword_bounds (st : Store) (query : Str) (top_k : Nat)
    (htok : ((splitWs (lower query)).filter (fun w => 2 < w.length)) ≠ [])
    (hk : 1 ≤ top_k) :
    (retrieve_keyword st query top_k).length ≤ top_k ∧
    (st ≠ [] → retrieve_keyword st query top_k ≠ []) := by
  have hlen : ∀ (l : List (Str × ℚ)),
      (((l.take top_k).filter (fun p => 0 < p.2)).map (fun p => p.1)).length ≤ top_k := by
    intro l
    rw [List.length_map]
    exact le_trans (List.length_filter_le _ _) (List.length_take_le _ _)
  constructor
  · simp only [retrieve_keyword]
    split
    · rw [List.length_take, List.length_map]
      exact min_le_left _ _
    · exact hlen _
  · intro hst
    simp only [retrieve_keyword]
    split
    · exact take_ne_nil_of_ne_nil _ _ (by simpa using hst) hk
    · rename_i hcond
      simpa using hcond

/-- Witness for C2 at a one-transcript store, query "fraud", `top_k = 1`. -/
theorem retrieve_keyword_bounds_witness :
    (retrieve_keyword [(S "t1", scenarioATranscript)] (S "fraud") 1).length ≤ 1 ∧
    retrieve_keyword [(S "t1", scenarioATranscript)] (S "fraud") 1 ≠ [] :=
  ⟨(retrieve_keyword_bounds [(S "t1", scenarioATranscript)] (S "fraud") 1
      (by decide) (by decide)).1,
   (retrieve_keyword_bounds [(S "t1", scenarioATranscript)] (S "fraud") 1
      (by decide) (by decide)).2 (by decide)⟩

/-! ## C4: evidence spans -/

/-- The spec's qualification test: the turn text contains some query
token longer than 3 characters, or some key-indicator word. -/
def qualifies (query_terms : List Str) (u : ConversationTurn) : Bool :=
  query_terms.any (fun t => hasSub t (lower u.text)) ||
  key_indicators.any (fun k => hasSub k (lower u.text))

/-- The spec's collection over one transcript's turns: visit turns in
order, append the span of each qualifying turn, stop at 4 spans. -/
def evidenceSpecTurns (query_terms : List Str) :
    List ConversationTurn → List (Nat × Str) → List (Nat × Str)
  | [], acc => acc
  | u :: us, acc =>
    if 4 ≤ acc.length then acc
    else if qualifies query_terms u then
      evidenceSpecTurns query_terms us (acc ++ [mkSpan u])
    else evidenceSpecTurns query_terms us acc

/-- The spec's collection over the transcripts, in the given order. -/
def evidenceSpecList (query_terms : List Str) :
    List ConversationTranscript → List (Nat × Str) → List (Nat × Str)
  | [], acc => acc
  | t :: ts, acc =>
    evidenceSpecList query_terms ts (evidenceSpecTurns query_terms t.turns acc)

/-- The evidence-span collection exactly as the specification words it. -/
def evidenceSpec (query : Str) (ts : List ConversationTranscript) : List (Nat × Str) :=
  evidenceSpecList (((splitWs query).filter (fun w => 3 < w.length)).map lower) ts []

/-- A filter has positive length exactly when some element passes. -/
theorem filter_pos_iff {α : Type} (p : α → Bool) (l : List α) :
    0 < (l.filter p).length ↔ l.any p = true := by
  rw [List.length_pos_iff_exists_mem]
  simp [List.mem_filter, List.any_eq_true]

/-- The code's per-turn step, restated as nested conditionals. -/
theorem evidenceStep_eq (terms : List Str) (acc : List (Nat × Str))
    (u : ConversationTurn) :
    evidenceStep terms acc u =
      if 4 ≤ acc.length then acc
      else if qualifies terms u then acc ++ [mkSpan u] else acc := by
  unfold evidenceStep qualifies
  by_cases h4 : acc.length < 4 <;>
    by_cases hq1 : terms.any (fun t => hasSub t (lower u.text)) = true <;>
    by_cases hq2 : key_indicators.any (fun k => hasSub k (lower u.text)) = true <;>
    simp [h4, hq1, hq2, filter_pos_iff, Nat.not_lt] <;>
    first
    | rw [if_neg (by omega : ¬ 4 ≤ acc.length)]
    | rw [if_pos (by omega : 4 ≤ acc.length)]

/-- Once 4 spans are collected the code's loop appends nothing more. -/
theorem evidence_foldl_full (terms : List Str) (us : List ConversationTurn)
    (acc : List (Nat × Str)) (h4 : 4 ≤ acc.length) :
    us.foldl (evidenceStep terms) acc = acc := by
  induction us with
  | nil => rfl
  | cons u us ih => rw [List.foldl_cons, evidenceStep_eq, if_pos h4]; exact ih

/-- The code's inner loop equals the spec's stop-at-4 collection. -/
theorem evidence_turns_eq (terms : List Str) (us : List ConversationTurn)
    (acc : List (Nat × Str)) :
    us.foldl (evidenceStep terms) acc = evidenceSpecTurns terms us acc := by
  induction us generalizing acc with
  | nil => rfl
  | cons u us ih =>
    rw [List.foldl_cons, evidenceStep_eq]
    simp only [evidenceSpecTurns]
    by_cases h4 : 4 ≤ acc.length
    · rw [if_pos h4, if_pos h4, evidence_foldl_full terms us acc h4]
    · rw [if_neg h4, if_neg h4]
      by_cases hq : qualifies terms u = true
      · rw [if_pos hq, if_pos hq, ih]
      · rw [if_neg hq, if_neg hq, ih]

/-- The code's outer loop equals the spec's collection. -/
theorem evidence_list_eq (terms : List Str) (ts : List ConversationTranscript)
    (acc : List (Nat × Str)) :
    ts.foldl (fun a t => t.turns.foldl (evidenceStep terms) a) acc
      = evidenceSpecList terms ts acc := by
  induction ts generalizing acc with
  | nil => rfl
  | cons t ts ih =>
    rw [List.foldl_cons, evidence_turns_eq]
    simp only [evidenceSpecList]
    exact ih _

/-- Every span produced by the inner loop was in the accumulator or is
the span of one of the visited turns. -/
theorem evidence_turns_mem (terms : List Str) (us : List ConversationTurn)
    (acc : List (Nat × Str)) (x : Nat × Str)
    (hx : x ∈ us.foldl (evidenceStep terms) acc) :
    x ∈ acc ∨ ∃ u ∈ us, x = mkSpan u := by
  induction us generalizing acc with
  | nil => exact Or.inl hx
  | cons u us ih =>
    rw [List.foldl_cons] at hx
    rcases ih _ hx with h | ⟨v, hv, hxv⟩
    · rw [evidenceStep_eq] at h
      split_ifs at h with h1 h2
      · exact Or.inl h
      · rcases List.mem_append.mp h with h | h
        · exact Or.inl h
        · exact Or.inr ⟨u, List.mem_cons_self _ _, by simpa using h⟩
      · exact Or.inl h
    · exact Or.inr ⟨v, List.mem_cons_of_mem _ hv, hxv⟩

/-- Every span produced by the outer loop was in the accumulator or is
the span of a turn of one of the transcripts. -/
theorem evidence_list_mem (terms : List Str) (ts : List ConversationTranscript)
    (acc : List (Nat × Str)) (x : Nat × Str)
    (hx : x ∈ ts.foldl (fun a t => t.turns.foldl (evidenceStep terms) a) acc) :
    x ∈ acc ∨ ∃ t ∈ ts, ∃ u ∈ t.turns, x = mkSpan u := by
  induction ts generalizing acc with
  | nil => exact Or.inl hx
  | cons t ts ih =>
    rw [List.foldl_cons] at hx
    rcases ih _ hx with h | ⟨t', ht', hu⟩
    · rcases evidence_turns_mem _ _ _ _ h with h | ⟨u, hu, hxu⟩
      · exact Or.inl h
      · exact Or.inr ⟨t, List.mem_cons_self _ _, u, hu, hxu⟩
    · exact Or.inr ⟨t', List.mem_cons_of_mem _ ht', hu⟩

/-- The inner loop keeps the accumulator length below 5. -/
theorem evidence_turns_len (terms : List Str) (us : List ConversationTurn)
    (acc : List (Nat × Str)) (h : acc.length ≤ 4) :
    (us.foldl (evidenceStep terms) acc).length ≤ 4 := by
  induction us generalizing acc with
  | nil => exact h
  | cons u us ih =>
    rw [List.foldl_cons, evidenceStep_eq]
    split_ifs with h1 h2
    · exact ih _ h
    · refine ih _ ?_
      rw [List.length_append]
      simp only [List.length_singleton]
      omega
    · exact ih _ h

/-- The outer loop keeps the accumulator length below 5. -/
theorem evidence_list_len (terms : List Str) (ts : List ConversationTranscript)
    (acc : List (Nat × Str)) (h : acc.length ≤ 4) :
    (ts.foldl (fun a t => t.turns.foldl (evidenceStep terms) a) acc).length ≤ 4 := by
  induction ts generalizing acc with
  | nil => exact h
  | cons t ts ih => exact ih _ (evidence_turns_len _ _ _ h)

/-- The truncated quoted text is at most 123 characters, ellipsis
included. -/
theorem truncDisplay_le (text : Str) : (truncDisplay text).length ≤ 123 := by
  unfold truncDisplay
  split_ifs with h
  · rw [List.length_append, List.length_take]
    have : (S "...").length = 3 := rfl
    omega
  · omega

/-- The transcript used to refute the 123-character display bound: a
qualifying turn ("error") whose text is longer than 120 characters. -/
def longTurnTranscript : ConversationTranscript :=
  { transcript_id := S "cx", domain := S "Tech", outcome := S "escalation",
    turns := [{ turn_id := 0, speaker := S "agent",
                text := S ("The error keeps happening every single day and the " ++
                  "system is still broken after many attempts to fix it over " ++
                  "the last month period") }],
    metadata := {} }

set_option maxRecDepth 100000 in
/-- C4 counterexample: a display string of an evidence span can exceed
123 characters — the `[speaker] ` prefix is not counted by the claim's
bound. -/
theorem evidence_display_cx :
    (analyze [] (S "T0") (S "what") [longTurnTranscript] true).1.evidence_spans.any
      (fun p => 123 < p.2.length) = true := by
  decide

/-- C4 (amended): `analyze` returns at most 4 evidence spans, collected
exactly as specified (transcripts in order, turns in order, a turn
qualifying iff its text contains a query token longer than 3 characters
or a key indicator, stopping at 4); each span is
`(turn_id, "[speaker] text")` whose quoted text portion (truncated to
120 characters plus ellipsis when longer) is at most 123 characters —
the full display string is that quoted portion plus the
`[speaker] ` prefix. -/
theorem analyze_evidence_spec (hist : List HistEntry) (now query : Str)
    (ts : List ConversationTranscript) (inc : Bool) :
    (analyze hist now query ts inc).1.evidence_spans.length ≤ 4 ∧
    (analyze hist now query ts inc).1.evidence_spans = evidenceSpec query ts ∧
    ∀ p ∈ (analyze hist now query ts inc).1.evidence_spans,
      ∃ t ∈ ts, ∃ u ∈ t.turns,
        p.1 = u.turn_id ∧
        p.2 = S "[" ++ u.speaker ++ S "] " ++ truncDisplay u.text ∧
        (truncDisplay u.text).length ≤ 123 := by
  have key : ∀ (t0 : ConversationTranscript) (rest : List ConversationTranscript),
      ts = t0 :: rest →
      (analyze hist now query ts inc).1.evidence_spans = extract_evidence query ts := by
    intro t0 rest hts
    subst hts
    rfl
  cases hts : ts with
  | nil =>
    refine ⟨?_, ?_, ?_⟩
    · simp [analyze, empty_explanation]
    · simp [analyze, empty_explanation, evidenceSpec, evidenceSpecList]
    · simp [analyze, empty_explanation]
  | cons t rest =>
    have he := key t rest hts
    rw [hts] at he
    refine ⟨?_, ?_, ?_⟩
    · rw [he]
      simp only [extract_evidence]
      exact evidence_list_len _ _ _ (by simp)
    · rw [he]
      simp only [extract_evidence, evidenceSpec]
      exact evidence_list_eq _ _ _
    · intro p hp
      rw [he] at hp
      simp only [extract_evidence] at hp
      rcases evidence_list_mem _ _ _ _ hp with h | ⟨t', ht', u, hu, hxu⟩
      · simp at h
      · exact ⟨t', ht', u, hu, by rw [hxu]; rfl, by rw [hxu]; rfl, truncDisplay_le _⟩

set_option maxRecDepth 100000 in
/-- Witness for C4's span-shape clause at Scenario A. -/
theorem analyze_evidence_spec_witness :
    ((0, S "[customer] " ++ truncDisplay scenarioAText)
        ∈ (analyze [] (S "T0") (S "why did the conversation escalate")
            [scenarioATranscript] true).1.evidence_spans) ∧
    (∃ t ∈ [scenarioATranscript], ∃ u ∈ t.turns,
      (0 : Nat) = u.turn_id ∧
      S "[customer] " ++ truncDisplay scenarioAText
        = S "[" ++ u.speaker ++ S "] " ++ truncDisplay u.text ∧
      (truncDisplay u.text).length ≤ 123) :=
  ⟨by decide,
   (analyze_evidence_spec [] (S "T0") (S "why did the conversation escalate")
      [scenarioATranscript] true).2.2
      (0, S "[customer] " ++ truncDisplay scenarioAText) (by decide)⟩

/-! ## C5: loading -/

/-- The per-entry skip loop as a `filterMap`: failed parses contribute
nothing, successful parses are inserted in order. -/
theorem load_fold_eq (l : List (Nat × Raw)) (st : Store) :
    l.foldl
      (fun acc p =>
        match parse_conversation p.2 p.1 with
        | some t => storeInsert acc t.transcript_id t
        | none => acc)
      st
    = (l.filterMap (fun p => parse_conversation p.2 p.1)).foldl
        (fun acc t => storeInsert acc t.transcript_id t) st := by
  induction l generalizing st with
  | nil => rfl
  | cons p ps ih =>
    rw [List.foldl_cons, List.filterMap_cons]
    cases h : parse_conversation p.2 p.1 <;> simp [h, ih]

/-- C5 counterexample: loading an empty list into a retriever that
already holds one transcript returns 1 — the size of the store — while
the call successfully loaded zero transcripts. -/
theorem load_count_cx :
    load_conversations (Raw.arr []) [(S "t1", scenarioATranscript)]
      = some ([(S "t1", scenarioATranscript)], 1) ∧
    (([] : List Raw).enum.filterMap (fun p => parse_conversation p.2 p.1)).length
      = 0 :=
  ⟨rfl, rfl⟩

/-- C5 (amended): whenever the extracted conversation container is
iterable, `load_conversations` returns normally for every raw input: each
entry whose parse fails is skipped and the remaining entries are still
processed (the store is the fold of the successfully parsed entries over
the prior store, last-write-wins per id), and the return value is the
size of the store after the call — not the count of transcripts loaded
by that call. -/
theorem load_conversations_spec (data : Raw) (st : Store) (entries : List Raw)
    (h : pyIter (extract_conversations data) = some entries) :
    load_conversations data st
      = some ((entries.enum.filterMap (fun p => parse_conversation p.2 p.1)).foldl
                (fun acc t => storeInsert acc t.transcript_id t) st,
              ((entries.enum.filterMap (fun p => parse_conversation p.2 p.1)).foldl
                (fun acc t => storeInsert acc t.transcript_id t) st).length) := by
  unfold load_conversations
  rw [h]
  show some _ = _
  rw [load_fold_eq]

/-- Witness for C5 at a one-entry list with one malformed sibling. -/
theorem load_conversations_spec_witness :
    load_conversations
        (Raw.arr [Raw.obj [(S "transcript_id", Raw.str (S "a")),
                           (S "conversation", Raw.arr [Raw.str (S "hello")])],
                  Raw.num 7])
        []
      = some ((([Raw.obj [(S "transcript_id", Raw.str (S "a")),
                          (S "conversation", Raw.arr [Raw.str (S "hello")])],
                 Raw.num 7] : List Raw).enum.filterMap
                  (fun p => parse_conversation p.2 p.1)).foldl
                (fun acc t => storeInsert acc t.transcript_id t) [],
              ((([Raw.obj [(S "transcript_id", Raw.str (S "a")),
                           (S "conversation", Raw.arr [Raw.str (S "hello")])],
                  Raw.num 7] : List Raw).enum.filterMap
                  (fun p => parse_conversation p.2 p.1)).foldl
                (fun acc t => storeInsert acc t.transcript_id t) []).length) :=
  load_conversations_spec _ _ _ rfl

/-! ## C10: stability of the ranking -/

/-- Two distinct members of a list occur in one of the two orders. -/
theorem mem_mem_sublist_or {α : Type} (l : List α) (a b : α)
    (ha : a ∈ l) (hb : b ∈ l) (hne : a ≠ b) :
    [a, b] <+ l ∨ [b, a] <+ l := by
  induction l with
  | nil => cases ha
  | cons x xs ih =>
    rcases List.mem_cons.mp ha with rfl | ha'
    · have hb' : b ∈ xs := by
        rcases List.mem_cons.mp hb with rfl | hb'
        · exact absurd rfl hne
        · exact hb'
      exact Or.inl (List.cons_sublist_cons.mpr (List.singleton_sublist.mpr hb'))
    · rcases List.mem_cons.mp hb with rfl | hb'
      · exact Or.inr (List.cons_sublist_cons.mpr (List.singleton_sublist.mpr ha'))
      · rcases ih ha' hb' with h | h
        · exact Or.inl (h.cons x)
        · exact Or.inr (h.cons x)

/-- In a duplicate-free list a pair cannot occur in both orders. -/
theorem not_pair_sublist_both {α : Type} (l : List α) (a b : α) (hnd : l.Nodup)
    (h1 : [a, b] <+ l) (h2 : [b, a] <+ l) : False := by
  induction l with
  | nil => cases h1
  | cons x xs ih =>
    have hx : x ∉ xs := (List.nodup_cons.mp hnd).1
    have hnd' : xs.Nodup := (List.nodup_cons.mp hnd).2
    cases h1 with
    | cons _ h1' =>
      cases h2 with
      | cons _ h2' => exact ih hnd' h1' h2'
      | cons₂ _ h2' =>
        exact hx (h1'.subset (by simp))
    | cons₂ _ h1' =>
      cases h2 with
      | cons _ h2' => exact hx (h2'.subset (by simp))
      | cons₂ _ h2' => exact hx (h2'.subset (by simp))

/-- A pair ordered in a duplicate-free list keeps that order in any
sublist containing both components. -/
theorem sublist_pair_of_mem {α : Type} (L res : List α) (a b : α)
    (hres : res <+ L) (hnd : L.Nodup) (hab : [a, b] <+ L)
    (ha : a ∈ res) (hb : b ∈ res) : [a, b] <+ res := by
  have hne : a ≠ b := by
    have hpair : ([a, b] : List α).Nodup := hab.nodup hnd
    simp only [List.nodup_cons, List.mem_singleton] at hpair
    exact hpair.1
  rcases mem_mem_sublist_or res a b ha hb hne with h | h
  · exact h
  · exact absurd (h.trans hres) (fun hba => not_pair_sublist_both L a b hnd hab hba)

/-- C10: transcripts with equal keyword scores appear in the sorted
ranking in store insertion order (the descending sort is stable), and
keep that relative order in the returned id list whenever both survive
the top-k/positive-score cut (or the fallback). -/
theorem retrieve_keyword_stable (st : Store) (query : Str) (top_k : Nat)
    (p1 p2 : Str × ConversationTranscript)
    (hnd : (st.map (fun p => p.1)).Nodup)
    (hsub : [p1, p2] <+ st)
    (heq : kw_score (lower query) p1.2 = kw_score (lower query) p2.2) :
    [p1.1, p2.1] <+
      (((st.map (fun p => (p.1, kw_score (lower query) p.2))).mergeSort
          (fun a b => decide (b.2 ≤ a.2))).map (fun sc => sc.1)) ∧
    (p1.1 ∈ retrieve_keyword st query top_k →
     p2.1 ∈ retrieve_keyword st query top_k →
     [p1.1, p2.1] <+ retrieve_keyword st query top_k) := by
  have htrans : ∀ (a b c : Str × ℚ),
      (fun a b => decide (b.2 ≤ a.2)) a b → (fun a b => decide (b.2 ≤ a.2)) b c →
      (fun a b => decide (b.2 ≤ a.2)) a c := by
    intro a b c hab hbc
    simp only [decide_eq_true_eq] at hab hbc ⊢
    exact le_trans hbc hab
  have htotal : ∀ (a b : Str × ℚ),
      ((fun a b => decide (b.2 ≤ a.2)) a b || (fun a b => decide (b.2 ≤ a.2)) b a) := by
    intro a b
    simp only [decide_eq_true_eq, Bool.or_eq_true]
    exact le_total b.2 a.2
  have hsubsc : [(p1.1, kw_score (lower query) p1.2),
                 (p2.1, kw_score (lower query) p2.2)]
      <+ st.map (fun p => (p.1, kw_score (lower query) p.2)) := by
    have := hsub.map (fun p => (p.1, kw_score (lower query) p.2))
    simpa using this
  have hle : (fun a b => decide (b.2 ≤ a.2))
      (p1.1, kw_score (lower query) p1.2) (p2.1, kw_score (lower query) p2.2) := by
    simp only [decide_eq_true_eq]
    exact le_of_eq heq.symm
  have hstab := List.pair_sublist_mergeSort htrans htotal hle hsubsc
  have hmapfst : ((st.map (fun p => (p.1, kw_score (lower query) p.2))).map
      (fun sc => sc.1)) = st.map (fun p => p.1) := by
    rw [List.map_map]
    rfl
  have hsortnd : (((st.map (fun p => (p.1, kw_score (lower query) p.2))).mergeSort
      (fun a b => decide (b.2 ≤ a.2))).map (fun sc => sc.1)).Nodup := by
    have hperm := List.mergeSort_perm
      (st.map (fun p => (p.1, kw_score (lower query) p.2)))
      (fun a b => decide (b.2 ≤ a.2))
    have := (hperm.map (fun sc : Str × ℚ => sc.1)).nodup_iff
    rw [hmapfst] at this
    exact this.mpr hnd
  have hranking : [p1.1, p2.1] <+
      (((st.map (fun p => (p.1, kw_score (lower query) p.2))).mergeSort
          (fun a b => decide (b.2 ≤ a.2))).map (fun sc => sc.1)) := by
    simpa using hstab.map (fun sc : Str × ℚ => sc.1)
  refine ⟨hranking, ?_⟩
  intro hm1 hm2
  simp only [retrieve_keyword] at hm1 hm2 ⊢
  split at hm1 <;> rename_i hcond
  · rw [if_pos hcond] at hm2 ⊢
    refine sublist_pair_of_mem (st.map (fun p => p.1)) _ _ _ ?_ hnd ?_ hm1 hm2
    · exact List.take_sublist _ _
    · simpa using hsub.map (fun p => p.1)
  · rw [if_neg hcond] at hm2 ⊢
    refine sublist_pair_of_mem
      ((((st.map (fun p => (p.1, kw_score (lower query) p.2))).mergeSort
          (fun a b => decide (b.2 ≤ a.2))).map (fun sc => sc.1))) _ _ _ ?_ hsortnd
      hranking hm1 hm2
    exact ((List.filter_sublist _).trans (List.take_sublist _ _)).map
      (fun sc : Str × ℚ => sc.1)

/-- Witness for C10: two equal-scored transcripts in a two-element
store. -/
theorem retrieve_keyword_stable_witness :
    ((([(S "a", scenarioATranscript), (S "b", scenarioATranscript)] : Store).map
        (fun p => p.1)).Nodup) ∧
    ([(S "a", scenarioATranscript), (S "b", scenarioATranscript)].map
        (fun p => (p.1, kw_score (lower (S "q")) p.2)) ≠ []) ∧
    ([(S "a", (scenarioATranscript : ConversationTranscript)).1,
      (S "b", (scenarioATranscript : ConversationTranscript)).1] <+
      ((([(S "a", scenarioATranscript), (S "b", scenarioATranscript)] : Store).map
          (fun p => (p.1, kw_score (lower (S "q")) p.2))).mergeSort
          (fun a b => decide (b.2 ≤ a.2))).map (fun sc => sc.1)) :=
  ⟨by decide, by decide,
   (retrieve_keyword_stable
      [(S "a", scenarioATranscript), (S "b", scenarioATranscript)] (S "q") 2
      (S "a", scenarioATranscript) (S "b", scenarioATranscript)
      (by decide) (List.Sublist.refl _) rfl).1⟩

end CS
